import Mathlib

/-!
# Verification of the libra consensus/mempool core

Shallow embedding of `src/mempool/src/core_mempool/mempool.rs` and
`src/consensus/src/round_manager.rs`, with theorems settling the claims
about `Mempool::add_txn`, `Mempool::get_block`,
`RoundManager::process_block_retrieval`, the `RoundManager` event handlers
and `RecoveryManager::sync_up`.

Account addresses, hash values and rounds are modelled as `Nat`.
Collaborators that live outside the two source files (the transaction
store, the TTL cache, the block store, safety rules, the proposer
election, the network) are modelled from the spec, each with a doc
comment saying so; wall-clock based fields (expiration timestamps, the
metrics cache) are elided since no claim depends on them.
-/

namespace Libra

/-! ## Mempool: data model (`core_mempool/mempool.rs`) -/

/-- Rust `TxnPointer` from `core_mempool/index.rs`: an (account address, sequence
number) pair identifying a transaction. -/
abbrev TxnPointer := Nat × Nat

/-- The part of `SignedTransaction` that the mempool logic reads:
`sender()` and `sequence_number()`. -/
structure SignedTransaction where
  sender : Nat
  sequence_number : Nat
deriving DecidableEq, Repr

/-- Rust `TimelineState` of `core_mempool/transaction.rs` (file not in src/);
modelled from the spec: `timeline_state ∈ {NonQualified, NotReady, Ready(id)}`. -/
inductive TimelineState where
  | NonQualified
  | NotReady
  | Ready (timeline_id : Nat)
deriving DecidableEq, Repr

/-- Rust `MempoolTransaction` of `core_mempool/transaction.rs` (file not in src/);
modelled from the spec: the stored record bundling the signed transaction
with its ranking data.  The wall-clock `expiration_time` is elided. -/
structure MempoolTransaction where
  txn : SignedTransaction
  gas_amount : Nat
  ranking_score : Nat
  timeline_state : TimelineState
  is_governance_txn : Bool
deriving DecidableEq, Repr

/-- Field `.address` of an entry yielded by `TransactionStore::iter_queue`. -/
def MempoolTransaction.address (t : MempoolTransaction) : Nat :=
  t.txn.sender

/-- Field `.sequence_number` of an entry yielded by `TransactionStore::iter_queue`. -/
def MempoolTransaction.seq (t : MempoolTransaction) : Nat :=
  t.txn.sequence_number

/-- Rust `TxnPointer::from(txn)`. -/
def TxnPointer.ofTxn (t : MempoolTransaction) : TxnPointer :=
  (t.address, t.seq)

/-- Rust `MempoolStatusCode` from `libra_types::mempool_status`; only the codes the
embedded functions produce are listed.  The human-readable message attached by
`with_message` is elided. -/
inductive MempoolStatusCode where
  | Valid
  | InvalidSeqNumber
deriving DecidableEq, Repr

/-- The `Mempool` struct.  `transactions : TransactionStore` is modelled from
the spec (transaction_store.rs is not in src/) as the list of stored
transactions in the order `iter_queue()` yields them (gas-price priority
order); `sequence_number_cache : TtlCache<AccountAddress, u64>` is modelled
from the spec as a partial map, with capacity bounds and TTL expiry elided
(no claim involves the passage of time).  The wall-clock `metrics_cache` and
`system_transaction_timeout` are elided. -/
structure Mempool where
  transactions : List MempoolTransaction
  sequence_number_cache : Nat → Option Nat

/-- Modelled from the spec: `TransactionStore::insert`
(transaction_store.rs is not in src/).  The store admits the transaction
into its indices and reports `Valid`; capacity eviction, duplicate
replacement and timeline promotion are elided, as no claim depends on
the accept path's store contents. -/
def TransactionStore.insert (m : Mempool) (txn_info : MempoolTransaction)
    (_current_sequence_number : Nat) : MempoolStatusCode × Mempool :=
  (MempoolStatusCode.Valid, { m with transactions := m.transactions ++ [txn_info] })

/-- Rust `Mempool::add_txn` (mempool.rs lines 105-157).  Reads the cached sequence
number, raises the cache entry to `max(cached, db_sequence_number)`, rejects
the transaction with `InvalidSeqNumber` when its sequence number is below
that value, and otherwise hands the record to `TransactionStore::insert`.
The metrics-cache insertion and expiration stamping (wall clock) are
elided. -/
def Mempool.add_txn (m : Mempool) (txn : SignedTransaction)
    (gas_amount : Nat) (rankin_score : Nat) (db_sequence_number : Nat)
    (timeline_state : TimelineState) (is_governance_txn : Bool) :
    MempoolStatusCode × Mempool :=
  let cached_value := m.sequence_number_cache txn.sender
  let sequence_number :=
    match cached_value with
    | none => db_sequence_number
    | some value => max value db_sequence_number
  let m1 : Mempool :=
    { m with sequence_number_cache :=
        fun a => if a = txn.sender then some sequence_number
                 else m.sequence_number_cache a }
  if txn.sequence_number < sequence_number then
    (MempoolStatusCode.InvalidSeqNumber, m1)
  else
    let txn_info : MempoolTransaction :=
      { txn := txn
        gas_amount := gas_amount
        ranking_score := rankin_score
        timeline_state := timeline_state
        is_governance_txn := is_governance_txn }
    TransactionStore.insert m1 txn_info sequence_number

/-! ## Mempool: `get_block` (`mempool.rs` lines 164-230) -/

/-- The inner `while skipped.contains(&skipped_txn)` loop of `get_block`
(mempool.rs lines 201-209): after including a transaction of account `a`,
greedily pull `(a, s)`, `(a, s+1)`, ... out of the `skipped` scratch set,
marking each as seen and appending it to the result; the returned flag is
`true` when `batch_size` was reached (the labelled break out of the main loop). -/
def drainSkipped (skipped : Finset TxnPointer) (batch_size : Nat) (a : Nat)
    (s : Nat) (seen : Finset TxnPointer) (result : List TxnPointer) :
    Finset TxnPointer × List TxnPointer × Bool :=
  if h : (a, s) ∈ skipped then
    let seen1 := insert (a, s) seen
    let result1 := result ++ [(a, s)]
    if result1.length = batch_size then (seen1, result1, true)
    else drainSkipped skipped batch_size a (s + 1) seen1 result1
  else (seen, result, false)
termination_by (skipped.filter (fun p => s ≤ p.2)).card
decreasing_by
  apply Finset.card_lt_card
  rw [Finset.ssubset_def]
  constructor
  · intro p hp
    rw [Finset.mem_filter] at hp ⊢
    exact ⟨hp.1, by omega⟩
  · intro hsub
    have h2 := hsub (Finset.mem_filter.mpr ⟨h, le_refl s⟩)
    rw [Finset.mem_filter] at h2
    simp at h2

/-- The main labelled loop of `Mempool::get_block` (mempool.rs lines 180-213):
walk the priority queue; skip transactions already seen; include a
transaction when its predecessor is seen or it is the account's next
sequence number, then drain its successors from `skipped`; otherwise park
it in `skipped`.  Returns the accumulated list of transaction pointers. -/
def getBlockGo (cache : Nat → Option Nat) (batch_size : Nat) :
    List MempoolTransaction → Finset TxnPointer → Finset TxnPointer →
      List TxnPointer → List TxnPointer
  | [], _, _, result => result
  | txn :: rest, seen, skipped, result =>
    if TxnPointer.ofTxn txn ∈ seen then
      getBlockGo cache batch_size rest seen skipped result
    else
      if (0 < txn.seq ∧ (txn.address, txn.seq - 1) ∈ seen) ∨
          cache txn.address = some txn.seq then
        let seen1 := insert (TxnPointer.ofTxn txn) seen
        let result1 := result ++ [TxnPointer.ofTxn txn]
        if result1.length = batch_size then result1
        else
          match drainSkipped skipped batch_size txn.address (txn.seq + 1) seen1 result1 with
          | (_, result2, true) => result2
          | (seen2, result2, false) =>
            getBlockGo cache batch_size rest seen2 skipped result2
      else
        getBlockGo cache batch_size rest seen (insert (TxnPointer.ofTxn txn) skipped) result

/-- Modelled from the spec: `TransactionStore::get` (transaction_store.rs is
not in src/) — return the signed transaction stored at
`(address, sequence_number)`, if any. -/
def TransactionStore.get (transactions : List MempoolTransaction)
    (address : Nat) (sequence_number : Nat) : Option SignedTransaction :=
  match transactions.find? (fun t => t.address == address && t.seq == sequence_number) with
  | some t => some t.txn
  | none => none

/-- Rust `Mempool::get_block` (mempool.rs lines 164-230): run the main loop over
the priority queue with an empty `skipped` scratch set, then convert the
collected pointers back to transactions through `TransactionStore::get`. -/
def Mempool.get_block (m : Mempool) (batch_size : Nat)
    (seen : Finset TxnPointer) : List SignedTransaction :=
  (getBlockGo m.sequence_number_cache batch_size m.transactions seen ∅ []).filterMap
    (fun p => TransactionStore.get m.transactions p.1 p.2)

/-- The justification claimed for a returned transaction at `(a, s)` given
the transactions `earlier` in the same block: `s` is the cached sequence
number for `a`, or `s > 0` and `(a, s-1)` is in the input seen set or
appears earlier in the block. -/
def ptrJustified (cache : Nat → Option Nat) (seen0 : Finset TxnPointer)
    (earlier : List TxnPointer) (p : TxnPointer) : Bool :=
  cache p.1 == some p.2 ||
    (decide (0 < p.2) &&
      (decide ((p.1, p.2 - 1) ∈ seen0) || decide ((p.1, p.2 - 1) ∈ earlier)))

/-- Every pointer in the list is justified by the cache, the input seen set,
or the pointers before it. -/
def chainedPtrs (cache : Nat → Option Nat) (seen0 : Finset TxnPointer) :
    List TxnPointer → List TxnPointer → Bool
  | _, [] => true
  | earlier, p :: rest =>
    ptrJustified cache seen0 earlier p && chainedPtrs cache seen0 (earlier ++ [p]) rest

/-- The C1 property for a returned block of transactions. -/
def chainedBlock (cache : Nat → Option Nat) (seen0 : Finset TxnPointer)
    (block : List SignedTransaction) : Bool :=
  chainedPtrs cache seen0 [] (block.map (fun t => (t.sender, t.sequence_number)))

/-! ## Consensus: block retrieval (`round_manager.rs` lines 737-767) -/

/-- The part of `consensus_types::block::Block` the embedded handlers read:
`id()`, `parent_id()`, `round()` and the proposer (`author`). -/
structure Block where
  id : Nat
  parent_id : Nat
  round : Nat
  author : Nat
deriving DecidableEq, Repr

/-- Rust `BlockRetrievalStatus` from `consensus_types::block_retrieval`. -/
inductive BlockRetrievalStatus where
  | Succeeded
  | IdNotFound
  | NotEnoughBlocks
deriving DecidableEq, Repr

/-- Modelled from the spec: `BlockStore::get_block` (block_storage is not in
src/) — look the block id up in the store, here a list of executed blocks. -/
def BlockStore.get_block (store : List Block) (id : Nat) : Option Block :=
  store.find? (fun b => b.id == id)

/-- The `while (blocks.len() as u64) < request.req.num_blocks()` walk of
`RoundManager::process_block_retrieval`, written as a countdown on the number
of blocks still wanted.  The status starts as `Succeeded` and is overwritten
with `NotEnoughBlocks` exactly when a lookup fails before the count is
reached. -/
def retrievalWalk (store : List Block) (id : Nat) :
    Nat → BlockRetrievalStatus × List Block
  | 0 => (BlockRetrievalStatus.Succeeded, [])
  | n + 1 =>
    match BlockStore.get_block store id with
    | some executed_block =>
      let rest := retrievalWalk store executed_block.parent_id n
      (rest.1, executed_block :: rest.2)
    | none => (BlockRetrievalStatus.NotEnoughBlocks, [])

/-- Rust `RoundManager::process_block_retrieval` (round_manager.rs lines 737-767):
walk the ancestor chain, then downgrade the status to `IdNotFound` when no
block at all was collected.  The response is the `(status, blocks)` pair;
serialization and the reply channel are elided. -/
def RoundManager.process_block_retrieval (store : List Block)
    (block_id num_blocks : Nat) : BlockRetrievalStatus × List Block :=
  let r := retrievalWalk store block_id num_blocks
  if r.2.isEmpty then (BlockRetrievalStatus.IdNotFound, r.2) else r

/-- The chain shape claimed for a retrieval response: the first block has the
requested id and each subsequent block's id is the previous block's
`parent_id` (a child-to-parent chain).  The empty list satisfies it
vacuously. -/
def chainFromId (id : Nat) : List Block → Bool
  | [] => true
  | b :: rest => b.id == id && chainFromId b.parent_id rest

/-! ## Claims C2 and C10: the block-retrieval response -/

/-- A one-block store used by the counterexample and witnesses: block 1 with
parent 0. -/
def retrievalStore0 : List Block := [⟨1, 0, 1, 0⟩]

/-! ## Consensus: RoundManager event handlers (`round_manager.rs`)

The handlers are `async fn`s over trait objects (`BlockStore`,
`TSafetyRules`, `ProposerElection`, `RoundState`, `NetworkSender`, ...).
They are embedded as pure functions over the replica state the claims
mention (`RoundState`: current round and last vote sent), with every call
into a collaborator replaced by an oracle field of `RMEnv` and every
externally visible action recorded in an event trace (`List Ev`).  The
order of oracle calls and emitted events follows the source line by
line. -/

/-- The part of `consensus_types::vote::Vote` the handlers read: the author,
the proposed block's round and id (`vote_data().proposed()`), and whether a
timeout signature is attached (`is_timeout()`).
`add_timeout_signature` sets the flag. -/
structure Vote where
  author : Nat
  round : Nat
  block_id : Nat
  is_timeout : Bool
deriving DecidableEq, Repr

/-- Rust `consensus_types::sync_info::SyncInfo` abstracted to the two readings the
embedded code performs: `highest_round()` and `epoch()` (consensus_types is
not in src/; modelled from the spec). -/
structure SyncInfo where
  highest_round : Nat
  epoch : Nat
deriving DecidableEq, Repr

/-- Rust `ProposalMsg { proposal, sync_info }`; `proposer()` is the proposal's
author and `round()` the proposal's round. -/
structure ProposalMsg where
  proposal : Block
  sync_info : SyncInfo
deriving DecidableEq, Repr

/-- Rust `proposal_msg.round()`. -/
def ProposalMsg.round (p : ProposalMsg) : Nat := p.proposal.round

/-- Rust `VoteMsg { vote, sync_info }`. -/
structure VoteMsg where
  vote : Vote
  sync_info : SyncInfo
deriving DecidableEq, Repr

/-- Rust `VoteReceptionResult` returned by `RoundState::insert_vote`
(liveness/round_state.rs is not in src/; variants from the spec, certificate
payloads elided). -/
inductive VoteReceptionResult where
  | NewQuorumCertificate
  | NewTimeoutCertificate
  | VoteAdded
  | DuplicateVote
  | EquivocateVote
  | ErrorAddingVote
deriving DecidableEq, Repr

/-- The externally visible actions of the embedded handlers, in program
order. -/
inductive Ev where
  | executeAndInsertBlock (id : Nat)
  | mempoolCommit (id : Nat)
  | saveVote (v : Vote)
  | recordVote (v : Vote)
  | sendVote (v : Vote)
  | broadcastVote (v : Vote)
  | syncUpCall
  | insertVoteRS (v : Vote)
  | signTimeoutCall (round : Nat)
  | qcAggregated
  | tcAggregated
  | fastForwardSyncCall
deriving DecidableEq, Repr

/-- The `RoundState` fields the claims touch (liveness/round_state.rs is not
in src/; modelled from the spec): the current round and the last vote sent
this round.  `record_vote` sets `vote_sent`. -/
structure RoundState where
  current_round : Nat
  vote_sent : Option Vote
deriving DecidableEq, Repr

/-- Oracles standing for the `RoundManager` collaborators (each field names
the source call it replaces).  Results of fallible calls are `Except` /
`Bool`; the handlers consume them in source order. -/
structure RMEnv where
  /-- Rust `self.proposal_generator.author()` -/
  author : Nat
  /-- Rust `self.proposer_election.is_valid_proposer(author, round)` -/
  is_valid_proposer : Nat → Nat → Bool
  /-- Rust `self.proposer_election.is_valid_proposal(block)` -/
  is_valid_proposal : Block → Bool
  /-- net effect of `RoundManager::sync_up(sync_info, author, true)` on the
  round state (it may advance the round through `process_certificates`) -/
  sync_up_result : SyncInfo → RoundState → Except String RoundState
  /-- success of `self.block_store.execute_and_insert_block(block)` -/
  execute_ok : Block → Bool
  /-- success of `wait_before_vote_if_needed(block.timestamp_usecs())` -/
  wait_ok : Block → Bool
  /-- Rust `self.safety_rules.construct_and_sign_vote(vote_proposal)` -/
  construct_and_sign_vote : Block → Except String Vote
  /-- success of `self.storage.save_vote(vote)` -/
  save_vote_ok : Bool
  /-- Rust `self.proposal_generator.generate_nil_block(round)` -/
  generate_nil_block : Nat → Except String Block
  /-- success of `self.safety_rules.sign_timeout(timeout)` -/
  sign_timeout_ok : Bool
  /-- Rust `self.block_store.get_quorum_cert_for_block(block_id).is_some()` -/
  has_quorum_cert_for_block : Nat → Bool
  /-- Rust `self.round_state.insert_vote(vote, verifier)` -/
  insert_vote : Vote → VoteReceptionResult
  /-- net effect of `new_qc_aggregated` (QC insertion + `process_certificates`) -/
  new_qc_result : RoundState → Except String RoundState
  /-- net effect of `new_tc_aggregated` (TC insertion + `process_certificates`) -/
  new_tc_result : RoundState → Except String RoundState

/-- Rust `RoundManager::execute_and_vote` (round_manager.rs lines 569-644):
execute and insert the block, notify the mempool, re-check the round,
require that no vote was sent this round, wait for the block timestamp,
ask safety rules for a vote and persist it.  The parent-block lookup and
the `VoteProposal` construction carry no decision and are elided. -/
def RoundManager.execute_and_vote (env : RMEnv) (st : RoundState)
    (proposed_block : Block) : Except String Vote × List Ev :=
  if ¬ env.execute_ok proposed_block then
    (Except.error "Failed to execute_and_insert the block", [])
  else
    let evs := [Ev.executeAndInsertBlock proposed_block.id,
                Ev.mempoolCommit proposed_block.id]
    if ¬ (proposed_block.round = st.current_round) then
      (Except.error "Proposal rejected because round is incorrect", evs)
    else if ¬ st.vote_sent.isNone then
      (Except.error "Already vote on this round", evs)
    else if ¬ env.wait_ok proposed_block then
      (Except.error "wait before vote failed", evs)
    else
      match env.construct_and_sign_vote proposed_block with
      | Except.error e => (Except.error e, evs)
      | Except.ok vote =>
        if ¬ env.save_vote_ok then
          (Except.error "Fail to persist last vote", evs)
        else
          (Except.ok vote, evs ++ [Ev.saveVote vote])

/-- Rust `RoundManager::process_proposed_block` (round_manager.rs lines 472-497):
execute and vote, record the vote in `RoundState`, then send the vote
message to the next round's proposer. -/
def RoundManager.process_proposed_block (env : RMEnv) (st : RoundState)
    (proposal : Block) : Except String RoundState × List Ev :=
  match RoundManager.execute_and_vote env st proposal with
  | (Except.error e, evs) => (Except.error e, evs)
  | (Except.ok vote, evs) =>
    let st1 := { st with vote_sent := some vote }
    (Except.ok st1, evs ++ [Ev.recordVote vote, Ev.sendVote vote])

/-- Rust `RoundManager::pre_process_proposal` (round_manager.rs lines 308-338):
reject proposals from old rounds, reject invalid proposers, sync up to the
message's `SyncInfo`, and re-check the round after the sync. -/
def RoundManager.pre_process_proposal (env : RMEnv) (st : RoundState)
    (proposal_msg : ProposalMsg) : Except String (RoundState × Block) × List Ev :=
  if ¬ (proposal_msg.round ≥ st.current_round) then
    (Except.error "Proposal round is less than current round", [])
  else if ¬ env.is_valid_proposal proposal_msg.proposal then
    (Except.error "Proposer for block is not a valid proposer for this round", [])
  else
    match env.sync_up_result proposal_msg.sync_info st with
    | Except.error e => (Except.error e, [Ev.syncUpCall])
    | Except.ok st1 =>
      if ¬ (proposal_msg.round = st1.current_round) then
        (Except.error "Proposal round does not match current round after sync",
          [Ev.syncUpCall])
      else
        (Except.ok (st1, proposal_msg.proposal), [Ev.syncUpCall])

/-- Rust `RoundManager::process_proposal_msg` (round_manager.rs lines 297-300):
pre-process, then process the proposed block. -/
def RoundManager.process_proposal_msg (env : RMEnv) (st : RoundState)
    (proposal_msg : ProposalMsg) : Except String RoundState × List Ev :=
  match RoundManager.pre_process_proposal env st proposal_msg with
  | (Except.error e, evs) => (Except.error e, evs)
  | (Except.ok (st1, block), evs) =>
    let r := RoundManager.process_proposed_block env st1 block
    (r.1, evs ++ r.2)

/-- The tail of `RoundManager::process_local_timeout` once the timeout-vote
payload (and the trace produced while obtaining it) is at hand: attach a
timeout signature when the vote has none, record the vote in `RoundState`,
then broadcast it to all replicas. -/
def RoundManager.local_timeout_finish (env : RMEnv) (st : RoundState)
    (round : Nat) : Except String Vote × List Ev → Except String RoundState × List Ev
  | (Except.error e, evs) => (Except.error e, evs)
  | (Except.ok timeout_vote, evs) =>
    if ¬ timeout_vote.is_timeout then
      if ¬ env.sign_timeout_ok then
        (Except.error "SafetyRules signs timeout failed", evs)
      else
        let timeout_vote1 := { timeout_vote with is_timeout := true }
        let st1 := { st with vote_sent := some timeout_vote1 }
        (Except.ok st1,
          evs ++ [Ev.signTimeoutCall round, Ev.recordVote timeout_vote1,
                  Ev.broadcastVote timeout_vote1])
    else
      let st1 := { st with vote_sent := some timeout_vote }
      (Except.ok st1,
        evs ++ [Ev.recordVote timeout_vote, Ev.broadcastVote timeout_vote])

/-- Rust `RoundManager::process_local_timeout` (round_manager.rs lines 414-452).
`RoundState::process_local_timeout(round)` is modelled from the spec
(round_state.rs is not in src/): it succeeds iff `round` is the current
round.  Reuse the vote already sent at this round if any, otherwise execute
and vote on a NIL block; then finish with `local_timeout_finish`. -/
def RoundManager.process_local_timeout (env : RMEnv) (st : RoundState)
    (round : Nat) : Except String RoundState × List Ev :=
  if ¬ (round = st.current_round) then
    (Except.error "local timeout is stale", [])
  else
    let last_vote : Option Vote :=
      match st.vote_sent with
      | some vote => if vote.round = round then some vote else none
      | none => none
    RoundManager.local_timeout_finish env st round
      (match last_vote with
       | some vote => (Except.ok vote, [])
       | none =>
         match env.generate_nil_block round with
         | Except.error e => (Except.error e, [])
         | Except.ok nil_block => RoundManager.execute_and_vote env st nil_block)

/-- Rust `RoundManager::add_vote` (round_manager.rs lines 677-708): return `Ok`
immediately when the voted block already has a QC; otherwise insert the vote
into the round state's pending votes and process a freshly formed QC or
TC. -/
def RoundManager.add_vote (env : RMEnv) (st : RoundState) (vote : Vote) :
    Except String RoundState × List Ev :=
  if env.has_quorum_cert_for_block vote.block_id then
    (Except.ok st, [])
  else
    match env.insert_vote vote with
    | VoteReceptionResult.NewQuorumCertificate =>
      (env.new_qc_result st, [Ev.insertVoteRS vote, Ev.qcAggregated])
    | VoteReceptionResult.NewTimeoutCertificate =>
      (env.new_tc_result st, [Ev.insertVoteRS vote, Ev.tcAggregated])
    | _ => (Except.ok st, [Ev.insertVoteRS vote])

/-- Rust `RoundManager::process_vote` (round_manager.rs lines 651-671): for a
non-timeout vote, require that this replica is a valid proposer for the
vote's round plus one; then sync up to the message's `SyncInfo` and add the
vote. -/
def RoundManager.process_vote (env : RMEnv) (st : RoundState)
    (vote_msg : VoteMsg) : Except String RoundState × List Ev :=
  if !vote_msg.vote.is_timeout &&
      !env.is_valid_proposer env.author (vote_msg.vote.round + 1) then
    (Except.error "Received vote but I am not a valid proposer for this round, ignore", [])
  else
    match env.sync_up_result vote_msg.sync_info st with
    | Except.error e => (Except.error e, [Ev.syncUpCall])
    | Except.ok st1 =>
      let r := RoundManager.add_vote env st1 vote_msg.vote
      (r.1, Ev.syncUpCall :: r.2)

/-! ## RecoveryManager (`round_manager.rs` lines 108-175) -/

/-- The `RecoveryManager` fields its `sync_up` reads. -/
structure RecoveryManager where
  epoch : Nat
  last_committed_round : Nat
deriving DecidableEq, Repr

/-- Oracles for the `RecoveryManager` collaborators. -/
structure RecoveryEnv where
  /-- Rust `sync_info.verify(&self.epoch_state.verifier)` -/
  verify : SyncInfo → Bool
  /-- Rust `BlockStore::fast_forward_sync(...)`; the returned `RecoveryData` is
  abstracted to a token -/
  fast_forward_sync : SyncInfo → Except String Nat

/-- Rust `RecoveryManager::sync_up` (round_manager.rs lines 150-170): verify the
sync info, require a strictly newer highest round and the local epoch, then
drive `BlockStore::fast_forward_sync`. -/
def RecoveryManager.sync_up (env : RecoveryEnv) (m : RecoveryManager)
    (sync_info : SyncInfo) : Except String Nat × List Ev :=
  if ¬ env.verify sync_info then
    (Except.error "sync info failed verification", [])
  else if ¬ (sync_info.highest_round > m.last_committed_round) then
    (Except.error "Received sync info has lower round number than committed block", [])
  else if ¬ (sync_info.epoch = m.epoch) then
    (Except.error "Received sync info is in different epoch than committed block", [])
  else
    match env.fast_forward_sync sync_info with
    | Except.ok recovery_data => (Except.ok recovery_data, [Ev.fastForwardSyncCall])
    | Except.error e => (Except.error e, [Ev.fastForwardSyncCall])

/-- Rust `RecoveryManager::process_proposal_msg` (round_manager.rs lines 135-142):
only the message's sync info is used. -/
def RecoveryManager.process_proposal_msg (env : RecoveryEnv) (m : RecoveryManager)
    (proposal_msg : ProposalMsg) : Except String Nat × List Ev :=
  RecoveryManager.sync_up env m proposal_msg.sync_info

/-- Rust `RecoveryManager::process_vote` (round_manager.rs lines 144-148): only
the message's sync info is used. -/
def RecoveryManager.process_vote (env : RecoveryEnv) (m : RecoveryManager)
    (vote_msg : VoteMsg) : Except String Nat × List Ev :=
  RecoveryManager.sync_up env m vote_msg.sync_info

/-! ## Helpers over event traces -/

/-- Returns `true` on `Except.error`. -/
def exceptIsError {ε α : Type} : Except ε α → Bool
  | Except.error _ => true
  | Except.ok _ => false

/-- Events that execute a block or record/transmit a vote. -/
def isExecuteOrVoteEv : Ev → Bool
  | Ev.executeAndInsertBlock _ => true
  | Ev.recordVote _ => true
  | Ev.sendVote _ => true
  | Ev.broadcastVote _ => true
  | _ => false

/-- Events that record or transmit a vote. -/
def isRecordOrNetEv : Ev → Bool
  | Ev.recordVote _ => true
  | Ev.sendVote _ => true
  | Ev.broadcastVote _ => true
  | _ => false

/-- Scans a trace keeping the set of votes recorded so far; `true` iff every
`sendVote`/`broadcastVote` transmits a vote that an earlier `recordVote`
recorded. -/
def sendsRecorded : List Vote → List Ev → Bool
  | _, [] => true
  | recorded, Ev.recordVote v :: rest => sendsRecorded (v :: recorded) rest
  | recorded, Ev.sendVote v :: rest => decide (v ∈ recorded) && sendsRecorded recorded rest
  | recorded, Ev.broadcastVote v :: rest => decide (v ∈ recorded) && sendsRecorded recorded rest
  | recorded, _ :: rest => sendsRecorded recorded rest

/-! ## Claim C7: RecoveryManager sync guard -/

/-- The precondition under which `RecoveryManager::sync_up` may reach
`fast_forward_sync`: the sync info verifies, carries a strictly newer
highest round, and is in the local epoch. -/
abbrev recoverySyncAllowed (env : RecoveryEnv) (m : RecoveryManager)
    (sync_info : SyncInfo) : Prop :=
  env.verify sync_info = true ∧
  sync_info.highest_round > m.last_committed_round ∧
  sync_info.epoch = m.epoch

/-! ## Concrete inputs for the RoundManager witnesses -/

/-- A concrete oracle assignment used by the witnesses. -/
def rmEnv0 : RMEnv :=
  { author := 0
    is_valid_proposer := fun _ _ => false
    is_valid_proposal := fun _ => false
    sync_up_result := fun _ s => Except.ok s
    execute_ok := fun _ => true
    wait_ok := fun _ => true
    construct_and_sign_vote := fun b => Except.ok ⟨0, b.round, b.id, false⟩
    save_vote_ok := true
    generate_nil_block := fun r => Except.ok ⟨r, r, r, 0⟩
    sign_timeout_ok := true
    has_quorum_cert_for_block := fun _ => true
    insert_vote := fun _ => VoteReceptionResult.VoteAdded
    new_qc_result := fun s => Except.ok s
    new_tc_result := fun s => Except.ok s }

/-- A concrete round state at round 5 with no vote sent. -/
def rmSt0 : RoundState := ⟨5, none⟩

/-- A concrete proposal at round 3 (older than round 5). -/
def rmPm0 : ProposalMsg := ⟨⟨1, 0, 3, 0⟩, ⟨0, 0⟩⟩

/-- A concrete non-timeout vote message. -/
def rmVm0 : VoteMsg := ⟨⟨0, 4, 9, false⟩, ⟨0, 0⟩⟩

/-- A concrete recovery oracle assignment. -/
def recEnv0 : RecoveryEnv :=
  { verify := fun _ => true
    fast_forward_sync := fun _ => Except.ok 0 }

/-- A concrete recovery manager at epoch 3, last committed round 10. -/
def recM0 : RecoveryManager := ⟨3, 10⟩

/-- A concrete proposal message whose sync info is in the wrong epoch. -/
def recPm0 : ProposalMsg := ⟨⟨1, 0, 3, 0⟩, ⟨11, 4⟩⟩

/-! ## Theorems -/

/-! ## Claims C3 and C8: `add_txn` rejection and cache frame effect -/

/-- C3: a transaction whose sequence number is below
`max(cached_seq (default db), db_sequence_number)` is rejected with
`InvalidSeqNumber` and the transaction store is left unchanged. -/
theorem add_txn_rejects_stale_sequence (m : Mempool) (txn : SignedTransaction)
    (gas_amount rankin_score db_sequence_number : Nat)
    (timeline_state : TimelineState) (is_governance_txn : Bool)
    (h : txn.sequence_number <
      match m.sequence_number_cache txn.sender with
      | none => db_sequence_number
      | some value => max value db_sequence_number) :
    (m.add_txn txn gas_amount rankin_score db_sequence_number
        timeline_state is_governance_txn).1 = MempoolStatusCode.InvalidSeqNumber ∧
    (m.add_txn txn gas_amount rankin_score db_sequence_number
        timeline_state is_governance_txn).2.transactions = m.transactions := by
  unfold Mempool.add_txn
  simp only [if_pos h]
  exact ⟨trivial, trivial⟩

/-- Witness for C3: a concrete rejected transaction. -/
theorem add_txn_rejects_stale_sequence_witness :
    (Mempool.add_txn ⟨[], fun a => if a = 7 then some 5 else none⟩ ⟨7, 3⟩
        1 1 2 TimelineState.NotReady false).1 = MempoolStatusCode.InvalidSeqNumber ∧
    (Mempool.add_txn ⟨[], fun a => if a = 7 then some 5 else none⟩ ⟨7, 3⟩
        1 1 2 TimelineState.NotReady false).2.transactions = [] := by
  exact add_txn_rejects_stale_sequence
    ⟨[], fun a => if a = 7 then some 5 else none⟩ ⟨7, 3⟩ 1 1 2
    TimelineState.NotReady false (by decide)

/-- C8: every call to `add_txn` sets the sender's cache entry to
`max(previous cached value, db_sequence_number)` (to `db_sequence_number`
when no entry existed) before the sequence-number check, so the update also
happens on the `InvalidSeqNumber` rejection path. -/
theorem add_txn_always_updates_cache (m : Mempool) (txn : SignedTransaction)
    (gas_amount rankin_score db_sequence_number : Nat)
    (timeline_state : TimelineState) (is_governance_txn : Bool) :
    (m.add_txn txn gas_amount rankin_score db_sequence_number
        timeline_state is_governance_txn).2.sequence_number_cache txn.sender =
      some (match m.sequence_number_cache txn.sender with
            | none => db_sequence_number
            | some value => max value db_sequence_number) := by
  unfold Mempool.add_txn TransactionStore.insert
  cases hc : m.sequence_number_cache txn.sender <;>
    simp only [hc] <;> split <;> simp

theorem retrievalWalk_chain (store : List Block) (id : Nat) (n : Nat) :
    chainFromId id (retrievalWalk store id n).2 = true := by
  induction n generalizing id with
  | zero => rfl
  | succ n ih =>
    unfold retrievalWalk
    cases hb : BlockStore.get_block store id with
    | none => rfl
    | some b =>
      have hid : b.id = id := by
        have := List.find?_some hb
        simpa using this
      simp [chainFromId, hid, ih b.parent_id]

theorem retrievalWalk_length_le (store : List Block) (id : Nat) (n : Nat) :
    (retrievalWalk store id n).2.length ≤ n := by
  induction n generalizing id with
  | zero => simp [retrievalWalk]
  | succ n ih =>
    unfold retrievalWalk
    cases BlockStore.get_block store id with
    | none => simp
    | some b => simpa using ih b.parent_id

theorem retrievalWalk_succeeded_iff (store : List Block) (id : Nat) (n : Nat) :
    (retrievalWalk store id n).1 = BlockRetrievalStatus.Succeeded ↔
      (retrievalWalk store id n).2.length = n := by
  induction n generalizing id with
  | zero => simp [retrievalWalk]
  | succ n ih =>
    unfold retrievalWalk
    cases BlockStore.get_block store id with
    | none => simp
    | some b => simpa using ih b.parent_id

theorem retrievalWalk_not_idnotfound (store : List Block) (id : Nat) (n : Nat) :
    (retrievalWalk store id n).1 ≠ BlockRetrievalStatus.IdNotFound := by
  induction n generalizing id with
  | zero => simp [retrievalWalk]
  | succ n ih =>
    unfold retrievalWalk
    cases BlockStore.get_block store id with
    | none => simp
    | some b => simpa using ih b.parent_id

theorem retrievalWalk_empty_iff (store : List Block) (id : Nat) (n : Nat)
    (hn : 1 ≤ n) :
    (retrievalWalk store id n).2 = [] ↔ BlockStore.get_block store id = none := by
  cases n with
  | zero => omega
  | succ n =>
    unfold retrievalWalk
    cases BlockStore.get_block store id with
    | none => simp
    | some b => simp

/-- C2 counterexample: for the request `{block_id := 1, num_blocks := 0}`
against a store that does contain block 1, the response holds exactly
`num_blocks = 0` blocks forming a (vacuous) child-to-parent chain from the
requested id, yet its status is `IdNotFound`, not `Succeeded`; the claimed
"if and only if" fails, and `IdNotFound` is produced although the requested
id is known. -/
theorem process_block_retrieval_claim_fails_at_zero :
    ¬ ((RoundManager.process_block_retrieval retrievalStore0 1 0).1 =
          BlockRetrievalStatus.Succeeded ↔
        ((RoundManager.process_block_retrieval retrievalStore0 1 0).2.length = 0 ∧
          chainFromId 1 (RoundManager.process_block_retrieval retrievalStore0 1 0).2 = true)) := by
  decide

/-- C2 (amended): for every request with `num_blocks ≥ 1`, the response of
`process_block_retrieval` has status `Succeeded` iff it holds exactly
`num_blocks` blocks forming a child-to-parent chain starting at `block_id`;
status `NotEnoughBlocks` iff the walk stopped early after returning at least
one block; and status `IdNotFound` iff `block_id` itself is unknown.  (For
`num_blocks = 0` the response is always `IdNotFound` with no blocks.) -/
theorem process_block_retrieval_status_characterisation (store : List Block)
    (block_id num_blocks : Nat) (hn : 1 ≤ num_blocks) :
    ((RoundManager.process_block_retrieval store block_id num_blocks).1 =
        BlockRetrievalStatus.Succeeded ↔
      ((RoundManager.process_block_retrieval store block_id num_blocks).2.length = num_blocks ∧
        chainFromId block_id
          (RoundManager.process_block_retrieval store block_id num_blocks).2 = true)) ∧
    ((RoundManager.process_block_retrieval store block_id num_blocks).1 =
        BlockRetrievalStatus.NotEnoughBlocks ↔
      ((RoundManager.process_block_retrieval store block_id num_blocks).2 ≠ [] ∧
        (RoundManager.process_block_retrieval store block_id num_blocks).2.length < num_blocks)) ∧
    ((RoundManager.process_block_retrieval store block_id num_blocks).1 =
        BlockRetrievalStatus.IdNotFound ↔
      BlockStore.get_block store block_id = none) := by
  unfold RoundManager.process_block_retrieval
  by_cases hempty : (retrievalWalk store block_id num_blocks).2 = []
  · have hget : BlockStore.get_block store block_id = none :=
      (retrievalWalk_empty_iff store block_id num_blocks hn).mp hempty
    simp only [hempty, List.isEmpty_nil, if_true]
    refine ⟨by simp [hempty, chainFromId]; omega, by simp, by simp [hget]⟩
  · have hget : ¬ BlockStore.get_block store block_id = none := by
      intro hc
      exact hempty ((retrievalWalk_empty_iff store block_id num_blocks hn).mpr hc)
    simp only [List.isEmpty_eq_true, hempty, if_false]
    refine ⟨?_, ?_, ?_⟩
    · rw [retrievalWalk_succeeded_iff]
      constructor
      · intro hl
        exact ⟨hl, retrievalWalk_chain store block_id num_blocks⟩
      · intro hl
        exact hl.1
    · constructor
      · intro hst
        refine ⟨hempty, ?_⟩
        have hle := retrievalWalk_length_le store block_id num_blocks
        rcases lt_or_eq_of_le hle with hlt | heq
        · exact hlt
        · exfalso
          have := (retrievalWalk_succeeded_iff store block_id num_blocks).mpr heq
          rw [hst] at this
          exact BlockRetrievalStatus.noConfusion this
      · intro ⟨_, hlt⟩
        cases hst : (retrievalWalk store block_id num_blocks).1 with
        | Succeeded =>
          exfalso
          have := (retrievalWalk_succeeded_iff store block_id num_blocks).mp hst
          omega
        | IdNotFound =>
          exact absurd hst (retrievalWalk_not_idnotfound store block_id num_blocks)
        | NotEnoughBlocks => rfl
    · constructor
      · intro hst
        exact absurd hst (retrievalWalk_not_idnotfound store block_id num_blocks)
      · intro hc
        exact absurd hc hget

/-- Witness for the amended C2 at a concrete input: one block requested from
the one-block store, a successful chain of length 1. -/
theorem process_block_retrieval_status_characterisation_witness :
    ((RoundManager.process_block_retrieval retrievalStore0 1 1).1 =
        BlockRetrievalStatus.Succeeded ↔
      ((RoundManager.process_block_retrieval retrievalStore0 1 1).2.length = 1 ∧
        chainFromId 1 (RoundManager.process_block_retrieval retrievalStore0 1 1).2 = true)) ∧
    ((RoundManager.process_block_retrieval retrievalStore0 1 1).1 =
        BlockRetrievalStatus.NotEnoughBlocks ↔
      ((RoundManager.process_block_retrieval retrievalStore0 1 1).2 ≠ [] ∧
        (RoundManager.process_block_retrieval retrievalStore0 1 1).2.length < 1)) ∧
    ((RoundManager.process_block_retrieval retrievalStore0 1 1).1 =
        BlockRetrievalStatus.IdNotFound ↔
      BlockStore.get_block retrievalStore0 1 = none) :=
  process_block_retrieval_status_characterisation retrievalStore0 1 1 (by decide)

/-- C10: a request with `num_blocks = 0` is answered with `IdNotFound` and an
empty block list even when the requested id is present in the store. -/
theorem process_block_retrieval_zero_blocks (store : List Block) (block_id : Nat)
    (_hpresent : (BlockStore.get_block store block_id).isSome = true) :
    RoundManager.process_block_retrieval store block_id 0 =
      (BlockRetrievalStatus.IdNotFound, []) := by
  rfl

/-- Witness for C10: block 1 is present in the store, yet the zero-block
request is answered `IdNotFound`. -/
theorem process_block_retrieval_zero_blocks_witness :
    (BlockStore.get_block retrievalStore0 1).isSome = true ∧
    RoundManager.process_block_retrieval retrievalStore0 1 0 =
      (BlockRetrievalStatus.IdNotFound, []) :=
  ⟨by decide, process_block_retrieval_zero_blocks retrievalStore0 1 (by decide)⟩

theorem sendsRecorded_of_neutral (recorded : List Vote) (l : List Ev)
    (h : l.all (fun e => !isRecordOrNetEv e) = true) :
    sendsRecorded recorded l = true := by
  induction l with
  | nil => rfl
  | cons e l ih =>
    rw [List.all_cons, Bool.and_eq_true] at h
    cases e <;> first
      | (exact ih h.2)
      | (exact absurd h.1 (by simp [isRecordOrNetEv]))

theorem sendsRecorded_append_neutral (recorded : List Vote) (l rest : List Ev)
    (h : l.all (fun e => !isRecordOrNetEv e) = true) :
    sendsRecorded recorded (l ++ rest) = sendsRecorded recorded rest := by
  induction l with
  | nil => rfl
  | cons e l ih =>
    rw [List.all_cons, Bool.and_eq_true] at h
    cases e <;> first
      | (exact ih h.2)
      | (exact absurd h.1 (by simp [isRecordOrNetEv]))

theorem execute_and_vote_trace_neutral (env : RMEnv) (st : RoundState) (b : Block) :
    ((RoundManager.execute_and_vote env st b).2).all
      (fun e => !isRecordOrNetEv e) = true := by
  unfold RoundManager.execute_and_vote
  dsimp only
  repeat' split
  all_goals rfl

/-! ## Claim C5: votes are recorded in RoundState before being transmitted -/

/-- C5: in `process_proposed_block` and in `process_local_timeout`, every
vote sent or broadcast on the network was recorded in `RoundState` by an
earlier `record_vote`; no unrecorded vote is ever transmitted. -/
theorem local_timeout_finish_sendsRecorded (env : RMEnv) (st : RoundState)
    (round : Nat) (attempt : Except String Vote × List Ev)
    (hn : (attempt.2).all (fun e => !isRecordOrNetEv e) = true) :
    sendsRecorded [] (RoundManager.local_timeout_finish env st round attempt).2 = true := by
  rcases attempt with ⟨r, evs⟩
  cases r with
  | error e => exact sendsRecorded_of_neutral [] evs hn
  | ok timeout_vote =>
    unfold RoundManager.local_timeout_finish
    dsimp only
    by_cases ht : timeout_vote.is_timeout
    · rw [if_neg (not_not_intro ht)]
      dsimp only
      rw [sendsRecorded_append_neutral [] evs _ hn]
      simp [sendsRecorded]
    · rw [if_pos ht]
      by_cases hs : env.sign_timeout_ok
      · rw [if_neg (not_not_intro hs)]
        dsimp only
        rw [sendsRecorded_append_neutral [] evs _ hn]
        simp [sendsRecorded]
      · rw [if_pos hs]
        exact sendsRecorded_of_neutral [] evs hn

theorem votes_recorded_before_network (env : RMEnv) (st : RoundState)
    (b : Block) (round : Nat) :
    sendsRecorded [] (RoundManager.process_proposed_block env st b).2 = true ∧
    sendsRecorded [] (RoundManager.process_local_timeout env st round).2 = true := by
  constructor
  · unfold RoundManager.process_proposed_block
    rcases hev : RoundManager.execute_and_vote env st b with ⟨r, evs⟩
    have hne : evs.all (fun e => !isRecordOrNetEv e) = true := by
      have := execute_and_vote_trace_neutral env st b
      rw [hev] at this
      exact this
    cases r with
    | error e => exact sendsRecorded_of_neutral [] evs hne
    | ok vote =>
      dsimp only
      rw [sendsRecorded_append_neutral [] evs _ hne]
      simp [sendsRecorded]
  · unfold RoundManager.process_local_timeout
    by_cases h1 : round = st.current_round
    · rw [if_neg (not_not_intro h1)]
      apply local_timeout_finish_sendsRecorded
      cases hv : st.vote_sent with
      | none =>
        dsimp only
        cases hn : env.generate_nil_block round with
        | error e => rfl
        | ok nil_block => exact execute_and_vote_trace_neutral env st nil_block
      | some vote =>
        dsimp only
        by_cases hr : vote.round = round
        · rw [if_pos hr]
          rfl
        · rw [if_neg hr]
          cases hn : env.generate_nil_block round with
          | error e => rfl
          | ok nil_block => exact execute_and_vote_trace_neutral env st nil_block
    · rw [if_pos h1]
      rfl

/-! ## Claim C4: proposal pre-processing rejections -/

/-- C4: `process_proposal_msg` returns an error, executing no block and
recording/sending no vote, whenever the proposal's round is below the
current round, or its author is not a valid proposer, or after the sync-up
step the proposal's round differs from the (possibly advanced) current
round. -/
theorem process_proposal_msg_rejects (env : RMEnv) (st : RoundState)
    (proposal_msg : ProposalMsg)
    (h : proposal_msg.round < st.current_round ∨
         env.is_valid_proposal proposal_msg.proposal = false ∨
         (∃ st1, env.sync_up_result proposal_msg.sync_info st = Except.ok st1 ∧
            proposal_msg.round ≠ st1.current_round)) :
    exceptIsError (RoundManager.process_proposal_msg env st proposal_msg).1 = true ∧
    (RoundManager.process_proposal_msg env st proposal_msg).2.all
      (fun e => !isExecuteOrVoteEv e) = true := by
  unfold RoundManager.process_proposal_msg RoundManager.pre_process_proposal
  by_cases h1 : proposal_msg.round ≥ st.current_round
  · rw [if_neg (not_not_intro h1)]
    by_cases h2 : env.is_valid_proposal proposal_msg.proposal
    · rw [if_neg (not_not_intro h2)]
      cases hs : env.sync_up_result proposal_msg.sync_info st with
      | error e => exact ⟨rfl, rfl⟩
      | ok st1 =>
        rcases h with hlt | hval | ⟨st1', heq, hne⟩
        · omega
        · rw [h2] at hval
          exact absurd hval (by simp)
        · rw [hs] at heq
          injection heq with heq1
          subst heq1
          dsimp only
          rw [if_pos hne]
          exact ⟨rfl, rfl⟩
    · rw [if_pos h2]
      exact ⟨rfl, rfl⟩
  · rw [if_pos h1]
    exact ⟨rfl, rfl⟩

/-! ## Claim C6: vote recipient filtering -/

/-- C6: `process_vote` drops a non-timeout vote without syncing up or
inserting it into `RoundState` (the trace is empty) unless this replica is
a valid proposer for the vote's round plus one. -/
theorem process_vote_requires_next_leader (env : RMEnv) (st : RoundState)
    (vote_msg : VoteMsg)
    (h1 : vote_msg.vote.is_timeout = false)
    (h2 : env.is_valid_proposer env.author (vote_msg.vote.round + 1) = false) :
    RoundManager.process_vote env st vote_msg =
      (Except.error "Received vote but I am not a valid proposer for this round, ignore",
        []) := by
  unfold RoundManager.process_vote
  rw [if_pos (by simp [h1, h2])]

/-! ## Claim C9: votes for blocks that already have a QC -/

/-- C9: when the voted block already has a quorum certificate in the block
store, `add_vote` returns `Ok` with the state unchanged and an empty trace:
the vote is not inserted into the pending votes and no certificate is
formed. -/
theorem add_vote_noop_when_qc_exists (env : RMEnv) (st : RoundState) (vote : Vote)
    (h : env.has_quorum_cert_for_block vote.block_id = true) :
    RoundManager.add_vote env st vote = (Except.ok st, []) := by
  unfold RoundManager.add_vote
  rw [if_pos h]

theorem recovery_sync_up_guard_aux (env : RecoveryEnv) (m : RecoveryManager)
    (sync_info : SyncInfo) :
    (Ev.fastForwardSyncCall ∈ (RecoveryManager.sync_up env m sync_info).2 →
        recoverySyncAllowed env m sync_info) ∧
    (¬ recoverySyncAllowed env m sync_info →
        exceptIsError (RecoveryManager.sync_up env m sync_info).1 = true ∧
        Ev.fastForwardSyncCall ∉ (RecoveryManager.sync_up env m sync_info).2) := by
  unfold RecoveryManager.sync_up
  by_cases h1 : env.verify sync_info
  · rw [if_neg (not_not_intro h1)]
    by_cases h2 : sync_info.highest_round > m.last_committed_round
    · rw [if_neg (not_not_intro h2)]
      by_cases h3 : sync_info.epoch = m.epoch
      · rw [if_neg (not_not_intro h3)]
        have hall : recoverySyncAllowed env m sync_info := ⟨h1, h2, h3⟩
        cases env.fast_forward_sync sync_info with
        | ok rd => exact ⟨fun _ => hall, fun hc => absurd hall hc⟩
        | error e => exact ⟨fun _ => hall, fun hc => absurd hall hc⟩
      · rw [if_pos h3]
        exact ⟨fun hc => absurd hc (by simp), fun _ => ⟨rfl, by simp⟩⟩
    · rw [if_pos h2]
      exact ⟨fun hc => absurd hc (by simp), fun _ => ⟨rfl, by simp⟩⟩
  · rw [if_pos h1]
    exact ⟨fun hc => absurd hc (by simp), fun _ => ⟨rfl, by simp⟩⟩

/-- C7: for every `ProposalMsg` and every `VoteMsg` handled by the
`RecoveryManager`, `fast_forward_sync` is invoked only when the carried
sync info verifies, has a strictly newer highest round, and matches the
local epoch; otherwise the call returns an error without invoking it. -/
theorem recovery_sync_up_guard (env : RecoveryEnv) (m : RecoveryManager)
    (proposal_msg : ProposalMsg) (vote_msg : VoteMsg) :
    (Ev.fastForwardSyncCall ∈ (RecoveryManager.process_proposal_msg env m proposal_msg).2 →
        recoverySyncAllowed env m proposal_msg.sync_info) ∧
    (¬ recoverySyncAllowed env m proposal_msg.sync_info →
        exceptIsError (RecoveryManager.process_proposal_msg env m proposal_msg).1 = true ∧
        Ev.fastForwardSyncCall ∉ (RecoveryManager.process_proposal_msg env m proposal_msg).2) ∧
    (Ev.fastForwardSyncCall ∈ (RecoveryManager.process_vote env m vote_msg).2 →
        recoverySyncAllowed env m vote_msg.sync_info) ∧
    (¬ recoverySyncAllowed env m vote_msg.sync_info →
        exceptIsError (RecoveryManager.process_vote env m vote_msg).1 = true ∧
        Ev.fastForwardSyncCall ∉ (RecoveryManager.process_vote env m vote_msg).2) :=
  ⟨(recovery_sync_up_guard_aux env m proposal_msg.sync_info).1,
   (recovery_sync_up_guard_aux env m proposal_msg.sync_info).2,
   (recovery_sync_up_guard_aux env m vote_msg.sync_info).1,
   (recovery_sync_up_guard_aux env m vote_msg.sync_info).2⟩

/-- Witness for C4: a proposal at round 3 against current round 5 is
rejected with no execution and no vote. -/
theorem process_proposal_msg_rejects_witness :
    exceptIsError (RoundManager.process_proposal_msg rmEnv0 rmSt0 rmPm0).1 = true ∧
    (RoundManager.process_proposal_msg rmEnv0 rmSt0 rmPm0).2.all
      (fun e => !isExecuteOrVoteEv e) = true :=
  process_proposal_msg_rejects rmEnv0 rmSt0 rmPm0 (Or.inl (by decide))

/-- Witness for C6: a non-timeout vote arriving at a replica that is not the
next round's proposer is dropped with an empty trace. -/
theorem process_vote_requires_next_leader_witness :
    RoundManager.process_vote rmEnv0 rmSt0 rmVm0 =
      (Except.error "Received vote but I am not a valid proposer for this round, ignore",
        []) :=
  process_vote_requires_next_leader rmEnv0 rmSt0 rmVm0 (by decide) (by decide)

/-- Witness for C9: a vote for a block that already has a QC is ignored. -/
theorem add_vote_noop_when_qc_exists_witness :
    RoundManager.add_vote rmEnv0 rmSt0 ⟨0, 4, 9, false⟩ = (Except.ok rmSt0, []) :=
  add_vote_noop_when_qc_exists rmEnv0 rmSt0 ⟨0, 4, 9, false⟩ (by decide)

/-- Witness for C7: sync info in a different epoch makes the recovery
processing fail without reaching `fast_forward_sync`. -/
theorem recovery_sync_up_guard_witness :
    exceptIsError (RecoveryManager.process_proposal_msg recEnv0 recM0 recPm0).1 = true ∧
    Ev.fastForwardSyncCall ∉ (RecoveryManager.process_proposal_msg recEnv0 recM0 recPm0).2 :=
  (recovery_sync_up_guard recEnv0 recM0 recPm0 ⟨⟨0, 4, 9, false⟩, ⟨11, 4⟩⟩).2.1
    (by decide)

/-! ## Claim C1: every transaction returned by `get_block` is justified -/

theorem chainedPtrs_append (cache : Nat → Option Nat) (seen0 : Finset TxnPointer)
    (l1 l2 : List TxnPointer) : ∀ earlier : List TxnPointer,
    chainedPtrs cache seen0 earlier (l1 ++ l2) =
      (chainedPtrs cache seen0 earlier l1 &&
        chainedPtrs cache seen0 (earlier ++ l1) l2) := by
  induction l1 with
  | nil => intro earlier; simp [chainedPtrs]
  | cons p l1 ih =>
    intro earlier
    simp only [List.cons_append, chainedPtrs, List.append_eq]
    rw [ih (earlier ++ [p]), List.append_assoc]
    simp [Bool.and_assoc]

theorem drainSkipped_invariant (cache : Nat → Option Nat) (seen0 : Finset TxnPointer)
    (Q : List MempoolTransaction) (skipped : Finset TxnPointer)
    (batch_size : Nat) (a : Nat) (s : Nat) (seen : Finset TxnPointer)
    (result : List TxnPointer) :
    (∀ p ∈ seen, p ∈ seen0 ∨ p ∈ result) →
    chainedPtrs cache seen0 [] result = true →
    (∀ p ∈ result, ∃ t ∈ Q, TxnPointer.ofTxn t = p) →
    (∀ p ∈ skipped, ∃ t ∈ Q, TxnPointer.ofTxn t = p) →
    0 < s → (a, s - 1) ∈ result →
    ((∀ p ∈ (drainSkipped skipped batch_size a s seen result).1,
        p ∈ seen0 ∨ p ∈ (drainSkipped skipped batch_size a s seen result).2.1) ∧
      chainedPtrs cache seen0 []
        (drainSkipped skipped batch_size a s seen result).2.1 = true ∧
      (∀ p ∈ result, p ∈ (drainSkipped skipped batch_size a s seen result).2.1) ∧
      (∀ p ∈ (drainSkipped skipped batch_size a s seen result).2.1,
        ∃ t ∈ Q, TxnPointer.ofTxn t = p)) := by
  induction s, seen, result using drainSkipped.induct skipped batch_size a with
  | case1 s seen result h result1 hlen =>
    intro h1 h2 h3 h4 h5 h6
    have hlen1 : (result ++ [(a, s)]).length = batch_size := hlen
    have hD : drainSkipped skipped batch_size a s seen result =
        (insert (a, s) seen, result ++ [(a, s)], true) := by
      rw [drainSkipped, dif_pos h]
      dsimp only
      rw [if_pos hlen1]
    rw [hD]
    have hJ : ptrJustified cache seen0 result (a, s) = true := by
      simp [ptrJustified, h5, h6]
    refine ⟨?_, ?_, ?_, ?_⟩
    · intro p hp
      rcases Finset.mem_insert.mp hp with rfl | hp'
      · exact Or.inr (by simp)
      · rcases h1 p hp' with hs | hr
        · exact Or.inl hs
        · exact Or.inr (List.mem_append_left _ hr)
    · rw [chainedPtrs_append]
      simp [chainedPtrs, h2, hJ]
    · intro p hp
      exact List.mem_append_left _ hp
    · intro p hp
      rcases List.mem_append.mp hp with hr | hr
      · exact h3 p hr
      · rw [List.mem_singleton] at hr
        subst hr
        exact h4 _ h
  | case2 s seen result h seen1 result1 hlen ih =>
    intro h1 h2 h3 h4 h5 h6
    have hlen1 : ¬ (result ++ [(a, s)]).length = batch_size := hlen
    have hD : drainSkipped skipped batch_size a s seen result =
        drainSkipped skipped batch_size a (s + 1) (insert (a, s) seen)
          (result ++ [(a, s)]) := by
      rw [drainSkipped, dif_pos h]
      dsimp only
      rw [if_neg hlen1]
    rw [hD]
    have hJ : ptrJustified cache seen0 result (a, s) = true := by
      simp [ptrJustified, h5, h6]
    have h1' : ∀ p ∈ insert (a, s) seen, p ∈ seen0 ∨ p ∈ result ++ [(a, s)] := by
      intro p hp
      rcases Finset.mem_insert.mp hp with rfl | hp'
      · exact Or.inr (by simp)
      · rcases h1 p hp' with hs | hr
        · exact Or.inl hs
        · exact Or.inr (List.mem_append_left _ hr)
    have h2' : chainedPtrs cache seen0 [] (result ++ [(a, s)]) = true := by
      rw [chainedPtrs_append]
      simp [chainedPtrs, h2, hJ]
    have h3' : ∀ p ∈ result ++ [(a, s)], ∃ t ∈ Q, TxnPointer.ofTxn t = p := by
      intro p hp
      rcases List.mem_append.mp hp with hr | hr
      · exact h3 p hr
      · rw [List.mem_singleton] at hr
        subst hr
        exact h4 _ h
    obtain ⟨D1, D2, D3, D4⟩ :=
      ih h1' h2' h3' h4 (Nat.succ_pos s)
        (by exact List.mem_append_right _ (List.mem_singleton_self _))
    exact ⟨D1, D2, fun p hp => D3 p (List.mem_append_left _ hp), D4⟩
  | case3 s seen result h =>
    intro h1 h2 h3 h4 _ _
    have hD : drainSkipped skipped batch_size a s seen result =
        (seen, result, false) := by
      rw [drainSkipped, dif_neg h]
    rw [hD]
    exact ⟨h1, h2, fun p hp => hp, h3⟩

theorem getBlockGo_invariant (cache : Nat → Option Nat) (seen0 : Finset TxnPointer)
    (Q : List MempoolTransaction) (batch_size : Nat)
    (queue : List MempoolTransaction) :
    ∀ (seen skipped : Finset TxnPointer) (result : List TxnPointer),
    (∀ t ∈ queue, t ∈ Q) →
    (∀ p ∈ seen, p ∈ seen0 ∨ p ∈ result) →
    chainedPtrs cache seen0 [] result = true →
    (∀ p ∈ result, ∃ t ∈ Q, TxnPointer.ofTxn t = p) →
    (∀ p ∈ skipped, ∃ t ∈ Q, TxnPointer.ofTxn t = p) →
    (chainedPtrs cache seen0 []
        (getBlockGo cache batch_size queue seen skipped result) = true ∧
      ∀ p ∈ getBlockGo cache batch_size queue seen skipped result,
        ∃ t ∈ Q, TxnPointer.ofTxn t = p) := by
  induction queue with
  | nil =>
    intro seen skipped result _ _ h2 h3 _
    exact ⟨h2, h3⟩
  | cons txn rest ih =>
    intro seen skipped result hq h1 h2 h3 h4
    have hqr : ∀ t ∈ rest, t ∈ Q := fun t ht => hq t (List.mem_cons_of_mem _ ht)
    have hqt : txn ∈ Q := hq txn (List.mem_cons_self _ _)
    rw [getBlockGo]
    by_cases hseen : TxnPointer.ofTxn txn ∈ seen
    · rw [if_pos hseen]
      exact ih seen skipped result hqr h1 h2 h3 h4
    · rw [if_neg hseen]
      by_cases hinc : (0 < txn.seq ∧ (txn.address, txn.seq - 1) ∈ seen) ∨
          cache txn.address = some txn.seq
      · rw [if_pos hinc]
        dsimp only
        have hJ : ptrJustified cache seen0 result (TxnPointer.ofTxn txn) = true := by
          rcases hinc with ⟨hpos, hprev⟩ | hcache
          · rcases h1 _ hprev with hs0 | hres
            · simp [ptrJustified, TxnPointer.ofTxn, hpos, hs0]
            · simp [ptrJustified, TxnPointer.ofTxn, hpos, hres]
          · simp [ptrJustified, TxnPointer.ofTxn, hcache]
        have h1' : ∀ p ∈ insert (TxnPointer.ofTxn txn) seen,
            p ∈ seen0 ∨ p ∈ result ++ [TxnPointer.ofTxn txn] := by
          intro p hp
          rcases Finset.mem_insert.mp hp with rfl | hp'
          · exact Or.inr (by simp)
          · rcases h1 p hp' with hs | hr
            · exact Or.inl hs
            · exact Or.inr (List.mem_append_left _ hr)
        have h2' : chainedPtrs cache seen0 []
            (result ++ [TxnPointer.ofTxn txn]) = true := by
          rw [chainedPtrs_append]
          simp [chainedPtrs, h2, hJ]
        have h3' : ∀ p ∈ result ++ [TxnPointer.ofTxn txn],
            ∃ t ∈ Q, TxnPointer.ofTxn t = p := by
          intro p hp
          rcases List.mem_append.mp hp with hr | hr
          · exact h3 p hr
          · rw [List.mem_singleton] at hr
            exact ⟨txn, hqt, hr.symm⟩
        by_cases hlen : (result ++ [TxnPointer.ofTxn txn]).length = batch_size
        · rw [if_pos hlen]
          exact ⟨h2', h3'⟩
        · rw [if_neg hlen]
          rcases hD : drainSkipped skipped batch_size txn.address (txn.seq + 1)
              (insert (TxnPointer.ofTxn txn) seen)
              (result ++ [TxnPointer.ofTxn txn]) with ⟨seen2, result2, flag⟩
          have hDI := drainSkipped_invariant cache seen0 Q skipped batch_size
              txn.address (txn.seq + 1) (insert (TxnPointer.ofTxn txn) seen)
              (result ++ [TxnPointer.ofTxn txn]) h1' h2' h3' h4 (Nat.succ_pos _)
              (by simp [TxnPointer.ofTxn])
          rw [hD] at hDI
          obtain ⟨D1, D2, D3, D4⟩ := hDI
          cases flag
          · exact ih seen2 skipped result2 hqr D1 D2 D4 h4
          · exact ⟨D2, D4⟩
      · rw [if_neg hinc]
        have h4' : ∀ p ∈ insert (TxnPointer.ofTxn txn) skipped,
            ∃ t ∈ Q, TxnPointer.ofTxn t = p := by
          intro p hp
          rcases Finset.mem_insert.mp hp with rfl | hp'
          · exact ⟨txn, hqt, rfl⟩
          · exact h4 p hp'
        exact ih seen (insert (TxnPointer.ofTxn txn) skipped) result hqr h1 h2 h3 h4'

theorem map_filterMap_get (Q : List MempoolTransaction) :
    ∀ l : List TxnPointer, (∀ p ∈ l, ∃ t ∈ Q, TxnPointer.ofTxn t = p) →
    (l.filterMap (fun p => TransactionStore.get Q p.1 p.2)).map
      (fun t => (t.sender, t.sequence_number)) = l := by
  intro l
  induction l with
  | nil => intro _; rfl
  | cons p l ih =>
    intro h
    obtain ⟨t, htQ, hpt⟩ := h p (List.mem_cons_self _ _)
    have hget : ∃ u : SignedTransaction, TransactionStore.get Q p.1 p.2 = some u ∧
        u.sender = p.1 ∧ u.sequence_number = p.2 := by
      unfold TransactionStore.get
      cases hf : Q.find? (fun t => t.address == p.1 && t.seq == p.2) with
      | none =>
        exfalso
        have hnone := List.find?_eq_none.mp hf t htQ
        apply hnone
        have ha : t.address = p.1 := by rw [← hpt]; rfl
        have hs : t.seq = p.2 := by rw [← hpt]; rfl
        simp [ha, hs]
      | some u =>
        have hu := List.find?_some hf
        simp only [Bool.and_eq_true, beq_iff_eq] at hu
        exact ⟨u.txn, rfl, hu.1, hu.2⟩
    obtain ⟨u, hu1, hu2, hu3⟩ := hget
    rw [List.filterMap_cons, hu1, List.map_cons]
    rw [ih (fun q hq => h q (List.mem_cons_of_mem _ hq))]
    have : (u.sender, u.sequence_number) = p := by
      rw [hu2, hu3]
    rw [this]

/-- C1: for every batch size and input seen set, every transaction at
`(a, s)` returned by `Mempool::get_block` satisfies at least one of:
`s` equals the cached sequence number for `a`, `(a, s-1)` is in the input
seen set, or `(a, s-1)` appears earlier in the same returned block. -/
theorem get_block_chained (m : Mempool) (batch_size : Nat)
    (seen : Finset TxnPointer) :
    chainedBlock m.sequence_number_cache seen (m.get_block batch_size seen) = true := by
  obtain ⟨hchain, hmem⟩ := getBlockGo_invariant m.sequence_number_cache seen
      m.transactions batch_size m.transactions seen ∅ []
      (fun t ht => ht) (fun p hp => Or.inl hp) rfl (by simp) (by simp)
  unfold chainedBlock Mempool.get_block
  rw [map_filterMap_get m.transactions _ hmem]
  exact hchain

end Libra

